import Mathlib

/-
Verification of the HTTP/2 client dispatch core (`src/actix-http/src/client/h2proto.rs`).

The embedding is a shallow model of `send_request`, `send_body` and `release`.
Asynchronous interactions with the external h2 engine (readiness poll, stream
open, capacity grants, send results, the response future) are supplied as an
explicit environment `H2Env`; every call the core makes to the pool or to the
stream-send interface is recorded, in program order, in a trace of `Ev` events.
Pure parts (request translation, header merge) are direct functional
translations of the source.
-/

set_option linter.unusedVariables false

/-- HTTP method; only equality with HEAD is observed by the code (line 38). -/
inductive Method
  | GET
  | HEAD
  | POST
  | PUT
  | OTHER (s : String)
deriving DecidableEq

/-- Request head: method, uri and a header collection.  Header names are
modelled as normalized lowercase strings; the map is a list in insertion
order (multi-valued names simply repeat). -/
structure RequestHead where
  method : Method
  uri : String
  headers : List (String × String)
deriving DecidableEq

/-- Type `RequestHeadType` from `crate::message`: an owned head, or a shared head
with an optional extra-header overlay. -/
inductive RequestHeadType
  | Owned (head : RequestHead)
  | Rc (head : RequestHead) (extra : Option (List (String × String)))
deriving DecidableEq

/-- Accessor `RequestHeadType::as_ref`, giving the underlying head. -/
def head_of : RequestHeadType → RequestHead
  | RequestHeadType.Owned h => h
  | RequestHeadType.Rc h _ => h

/-- Extra-header extraction of lines 74-80: `Owned` yields an empty map,
`Rc` yields the overlay or an empty map (`unwrap_or_else(HeaderMap::new)`). -/
def extra_of : RequestHeadType → List (String × String)
  | RequestHeadType.Owned _ => []
  | RequestHeadType.Rc _ e => e.getD []

/-- Type `BodySize` from `crate::body` (lengths as `Nat`). -/
inductive BodySize
  | None
  | Empty
  | Sized (n : Nat)
  | Stream
deriving DecidableEq

/-- Error of the h2 engine; only its `is_io()` classification is observed by
this core, `code` keeps distinct errors distinguishable. -/
structure H2Error where
  is_io : Bool
  code : Nat
deriving DecidableEq

/-- Type `SendRequestError`: an h2-engine error (readiness, open, send, response)
or a body-producer error (an abstract code). -/
inductive SendRequestError
  | h2 (e : H2Error)
  | body (code : Nat)
deriving DecidableEq

/-- HeaderMap::contains_key on the list model. -/
def contains_key (hs : List (String × String)) (n : String) : Bool :=
  hs.any (fun p => p.1 == n)

/-- Lines 54-71: the `Content-Length` insertion into the fresh request's
(empty) header map — `Empty` inserts "0", `Sized(n)` inserts the decimal
rendering of `n` (itoa), `None`/`Stream` insert nothing. -/
def cl_synth : BodySize → List (String × String)
  | BodySize.None => []
  | BodySize.Stream => []
  | BodySize.Empty => [("content-length", "0")]
  | BodySize.Sized n => [("content-length", Nat.repr n)]

/-- Lines 50-59: `skip_len` starts `true` and only the `Stream` arm resets
it to `false`. -/
def skip_len : BodySize → Bool
  | BodySize.Stream => false
  | _ => true

/-- Lines 83-88: head headers whose name is absent from the overlay, in
order, chained with the overlay's headers. -/
def merged_headers (ht : RequestHeadType) : List (String × String) :=
  ((head_of ht).headers.filter (fun p => !(contains_key (extra_of ht) p.1))) ++ extra_of ht

/-- Lines 91-102: the copy loop. `Connection` and `Transfer-Encoding` are
skipped, `Content-Length` is skipped when `sk` (= `skip_len`) holds, every
other pair is appended. -/
def copy_headers (sk : Bool) : List (String × String) → List (String × String)
  | [] => []
  | (k, v) :: rest =>
    if k = "connection" ∨ k = "transfer-encoding" then copy_headers sk rest
    else if sk ∧ k = "content-length" then copy_headers sk rest
    else (k, v) :: copy_headers sk rest

/-- The translated h2 request descriptor (lines 45-48: fresh request, uri and
method copied, version pinned to HTTP/2, here rendered as `2`). -/
structure H2Request where
  method : Method
  uri : String
  version : Nat
  headers : List (String × String)
deriving DecidableEq

/-- Request translation, lines 45-102: build the request, synthesize the
length header into the empty map, then append the merged-and-filtered
headers. -/
def build_req (ht : RequestHeadType) (length : BodySize) : H2Request :=
  { method := (head_of ht).method
    uri := (head_of ht).uri
    version := 2
    headers := cl_synth length ++ copy_headers (skip_len length) (merged_headers ht) }

/-- Line 40-43: `eof` is true iff the body size matches
`None | Empty | Sized(0)`. -/
def eof_flag : BodySize → Bool
  | BodySize.None => true
  | BodySize.Empty => true
  | BodySize.Sized 0 => true
  | _ => false

/-- One outcome of the body producer's `poll_next`: a chunk of bytes or a
producer failure.  Exhaustion of the list models `poll_next` returning
`None` (end of body). -/
inductive BodyItem
  | chunk (b : List Nat)
  | fail (code : Nat)
deriving DecidableEq

/-- One outcome of `poll_capacity`: a grant `Some(Ok(c))`, an error
`Some(Err(e))`, or `closed` = `None` (no more capacity will come).
Exhaustion of the list also models `None`. -/
inductive CapItem
  | grant (c : Nat)
  | fail (e : H2Error)
  | closed
deriving DecidableEq

/-- Which `return Ok(())` of `send_body` was taken: `eofSent` is line 153
(after the empty end-of-stream frame), `capClosed` is line 159
(`poll_capacity` returned `None`). -/
inductive SendEnd
  | eofSent
  | capClosed
deriving DecidableEq

/-- Trace events: every pool call and every call on the stream-send handle,
in program order.  `poolRelease`/`poolClose` are `Acquired::release`/
`Acquired::close`; `openAttempt` is the `io.send_request(req, eof)` call;
`grant` records a capacity grant received from `poll_capacity`; `reserve`
is `reserve_capacity`; `dataFrame` is a successful `send_data`;
`awaitResp` is the await of the response future. -/
inductive Ev
  | poolRelease (timestamp : Nat)
  | poolClose
  | openAttempt (req : H2Request)
  | grant (c : Nat)
  | reserve (n : Nat)
  | dataFrame (bytes : List Nat) (eos : Bool)
  | awaitResp
deriving DecidableEq

/-- Decidable equality for `Except`, needed by the derived instances below. -/
instance exceptDecEq {α β : Type} [DecidableEq α] [DecidableEq β] : DecidableEq (Except α β) := by
  intro a b
  cases a <;> cases b
  case error.error x y =>
    exact if h : x = y then Decidable.isTrue (by rw [h]) else
      Decidable.isFalse (fun hh => by cases hh; exact h rfl)
  case error.ok x y => exact Decidable.isFalse (fun hh => by cases hh)
  case ok.error x y => exact Decidable.isFalse (fun hh => by cases hh)
  case ok.ok x y =>
    exact if h : x = y then Decidable.isTrue (by rw [h]) else
      Decidable.isFalse (fun hh => by cases hh; exact h rfl)

/-- Outcome of sending one buffered chunk: the buffer was emptied and the
loop goes back to fetching (`more`, with the remaining capacity and send
oracles), or the whole loop stops with a result. -/
inductive ChunkOut
  | more (caps : List CapItem) (sends : List (Option H2Error))
  | stop (r : Except SendRequestError SendEnd)
deriving DecidableEq

/-- Next result of a `send_data` call: the oracle list is consumed one entry
per call; an exhausted list means the call succeeds. -/
def head_send : List (Option H2Error) → Option H2Error × List (Option H2Error)
  | [] => (Option.none, [])
  | r :: rest => (r, rest)

/-- Lines 158-177 for one buffered chunk `b`: repeatedly await capacity.
`None` (or an exhausted oracle) ends the loop successfully; an error ends it
with that error; a grant `c` carves off `min c b.length` bytes
(`split_to`), sends them as a non-end-of-stream frame, then re-reserves for
the remainder (if any) and waits again, or reports the buffer empty. -/
def send_chunk : List Nat → List CapItem → List (Option H2Error) → List Ev × ChunkOut
  | _, [], _ => ([], ChunkOut.stop (Except.ok SendEnd.capClosed))
  | _, CapItem.closed :: _, _ => ([], ChunkOut.stop (Except.ok SendEnd.capClosed))
  | _, CapItem.fail e :: _, _ => ([], ChunkOut.stop (Except.error (SendRequestError.h2 e)))
  | b, CapItem.grant c :: caps, sends =>
    let k := min c b.length
    let rem := b.drop k
    match head_send sends with
    | (Option.some e, _) => ([Ev.grant c], ChunkOut.stop (Except.error (SendRequestError.h2 e)))
    | (Option.none, sends') =>
      if rem.isEmpty then
        ([Ev.grant c, Ev.dataFrame (b.take k) false], ChunkOut.more caps sends')
      else
        let next := send_chunk rem caps sends'
        (Ev.grant c :: Ev.dataFrame (b.take k) false :: Ev.reserve rem.length :: next.1, next.2)

/-- Lines 134-179, `send_body`: fetch the next producer item; on a chunk,
reserve its full length and run the capacity loop on it; on a producer
error, abort; on end of body (exhausted producer), send the empty
end-of-stream frame (which may itself fail) and reserve zero. -/
def send_body : List BodyItem → List CapItem → List (Option H2Error) → List Ev × Except SendRequestError SendEnd
  | [], _, sends =>
    match head_send sends with
    | (Option.some e, _) => ([], Except.error (SendRequestError.h2 e))
    | (Option.none, _) => ([Ev.dataFrame [] true, Ev.reserve 0], Except.ok SendEnd.eofSent)
  | BodyItem.fail code :: _, _, _ => ([], Except.error (SendRequestError.body code))
  | BodyItem.chunk b :: rest, caps, sends =>
    match send_chunk b caps sends with
    | (evs, ChunkOut.stop r) => (Ev.reserve b.length :: evs, r)
    | (evs, ChunkOut.more caps' sends') =>
      let next := send_body rest caps' sends'
      (Ev.reserve b.length :: (evs ++ next.1), next.2)

/-- The h2 response as handed back by the response future: parts plus an
abstract body stream (identified by a number, enough to observe whether the
payload wraps it). -/
structure Resp where
  status : Nat
  version : Nat
  headers : List (String × String)
  body : Nat
deriving DecidableEq

/-- Type `ResponseHead` built on lines 128-130. -/
structure ResponseHead where
  status : Nat
  version : Nat
  headers : List (String × String)
deriving DecidableEq

/-- Type `Payload`: empty, or wrapping the response's body stream. -/
inductive Payload
  | None
  | Stream (body : Nat)
deriving DecidableEq

/-- Environment of external outcomes for one `send_request` run: the
readiness poll result, the stream-open result, the body producer's items,
the capacity grants, the per-call `send_data` results, the response
future's result, and `now`, the wall-clock reading at the moment the pool
release/close call is made (the code itself never reads a clock). -/
structure H2Env where
  ready : Except H2Error Unit
  open_res : Except H2Error Unit
  body_items : List BodyItem
  caps : List CapItem
  send_results : List (Option H2Error)
  response : Except H2Error Resp
  now : Nat
deriving DecidableEq

/-- Lines 182-193, `release`: close the pooled connection when `close`
holds, otherwise release it back with the `created` timestamp. -/
def release (created : Nat) (close : Bool) : Ev :=
  if close then Ev.poolClose else Ev.poolRelease created

/-- Lines 125-131: split the response into parts, force the payload empty
for HEAD requests, wrap the body otherwise, and rebuild the head. -/
def mk_response (m : Method) (resp : Resp) : ResponseHead × Payload :=
  ({ status := resp.status, version := resp.version, headers := resp.headers },
   if m = Method.HEAD then Payload.None else Payload.Stream resp.body)

/-- Lines 25-132, `send_request`: translate the request, await readiness
(failure resolves the guard via `release created e.is_io` and surfaces the
error), open the stream (same failure handling), on success release the
guard immediately, then — unless `eof` — run the body loop, and finally
await the response future. -/
def send_request (env : H2Env) (head : RequestHeadType) (length : BodySize) (created : Nat) :
    List Ev × Except SendRequestError (ResponseHead × Payload) :=
  let req := build_req head length
  match env.ready with
  | Except.error e => ([release created e.is_io], Except.error (SendRequestError.h2 e))
  | Except.ok _ =>
    match env.open_res with
    | Except.error e =>
      ([Ev.openAttempt req, release created e.is_io], Except.error (SendRequestError.h2 e))
    | Except.ok _ =>
      if eof_flag length then
        match env.response with
        | Except.error e =>
          ([Ev.openAttempt req, Ev.poolRelease created, Ev.awaitResp],
           Except.error (SendRequestError.h2 e))
        | Except.ok resp =>
          ([Ev.openAttempt req, Ev.poolRelease created, Ev.awaitResp],
           Except.ok (mk_response (head_of head).method resp))
      else
        match send_body env.body_items env.caps env.send_results with
        | (bevs, Except.error e) =>
          (Ev.openAttempt req :: Ev.poolRelease created :: bevs, Except.error e)
        | (bevs, Except.ok _) =>
          match env.response with
          | Except.error e =>
            (Ev.openAttempt req :: Ev.poolRelease created :: (bevs ++ [Ev.awaitResp]),
             Except.error (SendRequestError.h2 e))
          | Except.ok resp =>
            (Ev.openAttempt req :: Ev.poolRelease created :: (bevs ++ [Ev.awaitResp]),
             Except.ok (mk_response (head_of head).method resp))

/-- Observer: is the event a pool operation (`Acquired::release` or
`Acquired::close`)? -/
def is_pool : Ev → Bool
  | Ev.poolRelease _ => true
  | Ev.poolClose => true
  | _ => false

/-- Observer: is the event a stream-open attempt? -/
def is_open_ev : Ev → Bool
  | Ev.openAttempt _ => true
  | _ => false

/-- Observer: is the event an interaction of the body-send loop
(capacity grant, reservation, or data frame)? -/
def is_body_ev : Ev → Bool
  | Ev.grant _ => true
  | Ev.reserve _ => true
  | Ev.dataFrame _ _ => true
  | _ => false

/-- Observer: is the event a data frame marked end-of-stream? -/
def is_eos : Ev → Bool
  | Ev.dataFrame _ true => true
  | _ => false

/-- Number of end-of-stream data frames in a trace. -/
def eos_count (evs : List Ev) : Nat :=
  evs.countP is_eos

/-- Values of all `content-length` entries of a header list, in order. -/
def cl_values (hs : List (String × String)) : List String :=
  (hs.filter (fun p => p.1 == "content-length")).map (fun p => p.2)

/-- Modelled from the claim's wording: the body size is "exactly known and
not a stream", i.e. `Sized(n)` or `Empty`. -/
def has_known_len : BodySize → Bool
  | BodySize.Empty => true
  | BodySize.Sized _ => true
  | _ => false

/-- Reference merge following claim C7's words: head headers whose name is
absent from the overlay, then all overlay headers, with every `Connection`
and `Transfer-Encoding` entry dropped from the result. -/
def ref_merge (ht : RequestHeadType) : List (String × String) :=
  (((head_of ht).headers.filter (fun p => !(contains_key (extra_of ht) p.1))) ++ extra_of ht).filter
    (fun p => !(p.1 == "connection") && !(p.1 == "transfer-encoding"))

/-- Pairs the copy loop keeps: not `Connection`, not `Transfer-Encoding`,
and not `Content-Length` when `sk` holds. -/
def merge_keep (sk : Bool) (p : String × String) : Bool :=
  !(p.1 == "connection") && !(p.1 == "transfer-encoding") && !(sk && p.1 == "content-length")

/-- Reference merge as amended: additionally every `Content-Length` entry is
dropped whenever the body size is not `Stream` (`skip_len`). -/
def ref_merge_amended (ht : RequestHeadType) (bs : BodySize) : List (String × String) :=
  (((head_of ht).headers.filter (fun p => !(contains_key (extra_of ht) p.1))) ++ extra_of ht).filter
    (merge_keep (skip_len bs))

/-- Last capacity grant recorded in a trace, starting from `g`. -/
def after_grants : Option Nat → List Ev → Option Nat
  | g, [] => g
  | _, Ev.grant c :: rest => after_grants (Option.some c) rest
  | g, Ev.poolRelease t :: rest => after_grants g rest
  | g, Ev.poolClose :: rest => after_grants g rest
  | g, Ev.openAttempt r :: rest => after_grants g rest
  | g, Ev.reserve n :: rest => after_grants g rest
  | g, Ev.dataFrame b e :: rest => after_grants g rest
  | g, Ev.awaitResp :: rest => after_grants g rest

/-- Flow-control soundness of a trace: starting from a last-seen grant `g`,
every non-end-of-stream data frame is no larger than the most recent
capacity grant preceding it. -/
def frames_bounded : Option Nat → List Ev → Prop
  | _, [] => True
  | _, Ev.grant c :: rest => frames_bounded (Option.some c) rest
  | g, Ev.dataFrame b false :: rest =>
    (∃ c, g = Option.some c ∧ b.length ≤ c) ∧ frames_bounded g rest
  | g, Ev.dataFrame b true :: rest => frames_bounded g rest
  | g, Ev.poolRelease t :: rest => frames_bounded g rest
  | g, Ev.poolClose :: rest => frames_bounded g rest
  | g, Ev.openAttempt r :: rest => frames_bounded g rest
  | g, Ev.reserve n :: rest => frames_bounded g rest
  | g, Ev.awaitResp :: rest => frames_bounded g rest

/-- Concrete fixture: a plain GET head with no headers. -/
def head0 : RequestHead :=
  { method := Method.GET, uri := "/", headers := [] }

/-- Concrete fixture: owned GET head. -/
def ht0 : RequestHeadType :=
  RequestHeadType.Owned head0

/-- Concrete fixture: owned HEAD-method head. -/
def ht_head : RequestHeadType :=
  RequestHeadType.Owned { method := Method.HEAD, uri := "/", headers := [] }

/-- Concrete fixture: a head carrying a caller-supplied `Content-Length`. -/
def ht_cl : RequestHeadType :=
  RequestHeadType.Owned { method := Method.GET, uri := "/", headers := [("content-length", "5")] }

/-- Concrete fixture: a response with a non-empty body stream. -/
def resp0 : Resp :=
  { status := 200, version := 2, headers := [("x-a", "b")], body := 1 }

/-- Concrete fixture: an environment in which every external step succeeds;
the wall clock at pool-call time reads 5. -/
def env_ok : H2Env :=
  { ready := Except.ok ()
    open_res := Except.ok ()
    body_items := []
    caps := []
    send_results := []
    response := Except.ok resp0
    now := 5 }

/-- Concrete fixture: readiness fails with a protocol-level (non-I/O)
error. -/
def env_ready_fail_proto : H2Env :=
  { env_ok with ready := Except.error { is_io := false, code := 1 } }

/-- Concrete fixture: readiness fails with an I/O error. -/
def env_ready_fail_io : H2Env :=
  { env_ok with ready := Except.error { is_io := true, code := 2 } }

/-- The copy loop of lines 91-102 is the filter by `merge_keep`. -/
theorem copy_headers_eq_filter (sk : Bool) (hs : List (String × String)) :
    copy_headers sk hs = hs.filter (merge_keep sk) := by
  induction hs with
  | nil => rfl
  | cons p rest ih =>
    obtain ⟨k, v⟩ := p
    by_cases h1 : k = "connection"
    · subst h1
      simp [copy_headers, merge_keep, ih]
    · by_cases h2 : k = "transfer-encoding"
      · subst h2
        simp [copy_headers, merge_keep, ih]
      · by_cases h3 : k = "content-length"
        · subst h3
          cases sk <;> simp [copy_headers, merge_keep, ih, h1, h2]
        · simp [copy_headers, merge_keep, ih, h1, h2, h3]

/-- With `skip_len` in force, the copy loop emits no `content-length`. -/
theorem copy_skip_no_cl (hs : List (String × String)) :
    contains_key (copy_headers true hs) "content-length" = false := by
  induction hs with
  | nil => rfl
  | cons p rest ih =>
    obtain ⟨k, v⟩ := p
    by_cases h1 : k = "connection"
    · subst h1; simp [copy_headers, ih]
    · by_cases h2 : k = "transfer-encoding"
      · subst h2; simp [copy_headers, ih]
      · by_cases h3 : k = "content-length"
        · subst h3; simp [copy_headers, ih, h1, h2]
        · simp [copy_headers, contains_key, ih, h1, h2, h3]
          simpa [contains_key] using ih

/-- Without `skip_len`, the copy loop preserves whether `content-length`
occurs. -/
theorem copy_noskip_cl (hs : List (String × String)) :
    contains_key (copy_headers false hs) ("content-length") = contains_key hs ("content-length") := by
  induction hs with
  | nil => rfl
  | cons p rest ih =>
    obtain ⟨k, v⟩ := p
    by_cases h1 : k = "connection"
    · subst h1
      have hcopy : copy_headers false (("connection", v) :: rest) = copy_headers false rest := by
        simp [copy_headers]
      rw [hcopy, ih]
      simp [contains_key]
    · by_cases h2 : k = "transfer-encoding"
      · subst h2
        have hcopy : copy_headers false (("transfer-encoding", v) :: rest) =
            copy_headers false rest := by
          simp [copy_headers]
        rw [hcopy, ih]
        simp [contains_key]
      · have hcopy : copy_headers false ((k, v) :: rest) = (k, v) :: copy_headers false rest := by
          simp [copy_headers, h1, h2]
        rw [hcopy]
        simp only [contains_key, List.any_cons]
        exact congrArg (fun x => k == "content-length" || x) ih

/-- With `skip_len` in force, the copy loop's output has no
`content-length` values at all. -/
theorem cl_values_copy_skip (hs : List (String × String)) :
    cl_values (copy_headers true hs) = [] := by
  induction hs with
  | nil => rfl
  | cons p rest ih =>
    obtain ⟨k, v⟩ := p
    by_cases h1 : k = "connection"
    · subst h1; simp [copy_headers, ih]
    · by_cases h2 : k = "transfer-encoding"
      · subst h2; simp [copy_headers, ih]
      · by_cases h3 : k = "content-length"
        · subst h3; simp [copy_headers, ih, h1, h2]
        · simp [copy_headers, cl_values, h1, h2, h3]
          simpa [cl_values] using ih

/-- Helper shared by C3 and C10: with an `Empty` body the emitted header
list has exactly one `content-length` value, the synthesized "0". -/
theorem build_cl_values_empty (ht : RequestHeadType) :
    cl_values (build_req ht BodySize.Empty).headers = ["0"] := by
  have h := cl_values_copy_skip (merged_headers ht)
  show cl_values (("content-length", "0") :: copy_headers true (merged_headers ht)) = ["0"]
  simp only [cl_values, List.filter_cons] at h ⊢
  simp [h]

/-- Helper shared by C3 and C10: with a `Sized n` body the emitted header
list has exactly one `content-length` value, the decimal rendering of
`n`. -/
theorem build_cl_values_sized (ht : RequestHeadType) (n : Nat) :
    cl_values (build_req ht (BodySize.Sized n)).headers = [Nat.repr n] := by
  have h := cl_values_copy_skip (merged_headers ht)
  show cl_values (("content-length", Nat.repr n) :: copy_headers true (merged_headers ht))
    = [Nat.repr n]
  simp only [cl_values, List.filter_cons] at h ⊢
  simp [h]

/-- C3 (counterexample): with `BodySize::Stream` and a caller-supplied
`Content-Length`, the emitted header set does contain `Content-Length`
although the body size is neither `Sized` nor `Empty`, refuting the
claimed "if and only if … regardless of any caller-supplied
Content-Length". -/
theorem h2_C3_cex :
    contains_key (build_req ht_cl BodySize.Stream).headers ("content-length") = true ∧
    has_known_len BodySize.Stream = false := by
  decide

/-- C3 (amended): the emitted headers contain `Content-Length` for `Empty`
and `Sized` bodies (never for `None`), and for `Stream` bodies exactly when
the caller-supplied merged headers contain one; for `Empty`/`Sized` the
value is the minimal decimal rendering ("0", `Nat.repr n`), regardless of
caller-supplied entries. -/
theorem h2_C3_amended (ht : RequestHeadType) (n : Nat) :
    contains_key (build_req ht BodySize.None).headers ("content-length") = false ∧
    contains_key (build_req ht BodySize.Empty).headers ("content-length") = true ∧
    contains_key (build_req ht (BodySize.Sized n)).headers ("content-length") = true ∧
    contains_key (build_req ht BodySize.Stream).headers ("content-length")
      = contains_key (merged_headers ht) "content-length" ∧
    cl_values (build_req ht BodySize.Empty).headers = ["0"] ∧
    cl_values (build_req ht (BodySize.Sized n)).headers = [Nat.repr n] := by
  refine ⟨?_, ?_, ?_, ?_, build_cl_values_empty ht, build_cl_values_sized ht n⟩
  · show contains_key (copy_headers true (merged_headers ht)) "content-length" = false
    exact copy_skip_no_cl _
  · show contains_key (("content-length", "0") :: copy_headers true (merged_headers ht))
      "content-length" = true
    simp [contains_key]
  · show contains_key (("content-length", Nat.repr n) :: copy_headers true (merged_headers ht))
      "content-length" = true
    simp [contains_key]
  · show contains_key (copy_headers false (merged_headers ht)) "content-length" = _
    exact copy_noskip_cl _

/-- C10: with an `Empty` or `Sized(n)` body the emitted header set carries
exactly one `Content-Length` entry — the synthesized one — even when the
caller supplied `Content-Length` headers of its own: the value list of that
name is exactly the singleton of the synthesized rendering. -/
theorem h2_C10 (ht : RequestHeadType) (n : Nat) :
    cl_values (build_req ht BodySize.Empty).headers = ["0"] ∧
    cl_values (build_req ht (BodySize.Sized n)).headers = [Nat.repr n] :=
  ⟨build_cl_values_empty ht, build_cl_values_sized ht n⟩

/-- C7 (counterexample): with `BodySize::None` and a caller-supplied
`Content-Length` header, the emitted sequence differs from the claim's
reference merge (the code also drops `Content-Length` since the length is
not a known fixed value). -/
theorem h2_C7_cex :
    (build_req ht_cl BodySize.None).headers ≠ ref_merge ht_cl := by
  decide

/-- C7 (amended): the emitted header sequence equals the synthesized
`Content-Length` entry (when `Empty`/`Sized`) followed by the reference
merge — head headers absent from the overlay, then overlay headers — with
every `Connection`, `Transfer-Encoding`, and (when the size is not
`Stream`) `Content-Length` entry dropped; in particular the result never
contains `Connection` or `Transfer-Encoding`. -/
theorem h2_C7_amended (ht : RequestHeadType) (bs : BodySize) :
    (build_req ht bs).headers = cl_synth bs ++ ref_merge_amended ht bs ∧
    (build_req ht bs).headers.countP
      (fun p => p.1 == "connection" || p.1 == "transfer-encoding") = 0 := by
  have hb : (build_req ht bs).headers
      = cl_synth bs ++ (merged_headers ht).filter (merge_keep (skip_len bs)) := by
    show cl_synth bs ++ copy_headers (skip_len bs) (merged_headers ht) = _
    rw [copy_headers_eq_filter]
  constructor
  · rw [hb]; rfl
  · rw [hb, List.countP_append]
    have h1 : (cl_synth bs).countP
        (fun p => p.1 == "connection" || p.1 == "transfer-encoding") = 0 := by
      cases bs <;> simp [cl_synth]
    have h2 : ((merged_headers ht).filter (merge_keep (skip_len bs))).countP
        (fun p => p.1 == "connection" || p.1 == "transfer-encoding") = 0 := by
      rw [List.countP_eq_zero]
      intro a ha
      have hk := (List.mem_filter.mp ha).2
      simp only [merge_keep, Bool.and_eq_true, Bool.not_eq_true'] at hk
      simp [hk.1.1, hk.1.2]
    rw [h1, h2]

/-- Capacity-loop traces contain only grant/frame/reserve events: any
predicate false on those counts zero over a `send_chunk` trace. -/
theorem send_chunk_countP_zero (p : Ev → Bool)
    (hg : ∀ c, p (Ev.grant c) = false)
    (hd : ∀ b e, p (Ev.dataFrame b e) = false)
    (hr : ∀ n, p (Ev.reserve n) = false) :
    ∀ (caps : List CapItem) (b : List Nat) (sends : List (Option H2Error)),
      (send_chunk b caps sends).1.countP p = 0 := by
  intro caps
  induction caps with
  | nil => intro b sends; simp [send_chunk]
  | cons it tl ih =>
    intro b sends
    cases it with
    | closed => simp [send_chunk]
    | fail e => simp [send_chunk]
    | grant c =>
      cases hs : head_send sends with
      | mk o s' =>
        cases o with
        | some e => simp [send_chunk, hs, List.countP_cons, hg]
        | none =>
          by_cases hrem : (List.drop (min c b.length) b).isEmpty
          · simp [send_chunk, hs, hrem, List.countP_cons, hg, hd]
          · simp [send_chunk, hs, hrem, List.countP_cons, hg, hd, hr, ih]

/-- Body-send traces contain only grant/frame/reserve events: any predicate
false on those counts zero over a `send_body` trace. -/
theorem send_body_countP_zero (p : Ev → Bool)
    (hg : ∀ c, p (Ev.grant c) = false)
    (hd : ∀ b e, p (Ev.dataFrame b e) = false)
    (hr : ∀ n, p (Ev.reserve n) = false) :
    ∀ (prod : List BodyItem) (caps : List CapItem) (sends : List (Option H2Error)),
      (send_body prod caps sends).1.countP p = 0 := by
  intro prod
  induction prod with
  | nil =>
    intro caps sends
    cases hs : head_send sends with
    | mk o s' =>
      cases o with
      | some e => simp [send_body, hs]
      | none => simp [send_body, hs, List.countP_cons, hd, hr]
  | cons it rest ih =>
    intro caps sends
    cases it with
    | fail code => simp [send_body]
    | chunk b =>
      cases hsc : send_chunk b caps sends with
      | mk evs out =>
        have hevs : evs.countP p = 0 := by
          have h := send_chunk_countP_zero p hg hd hr caps b sends
          rw [hsc] at h
          exact h
        cases out with
        | stop r => simp [send_body, hsc, List.countP_cons, hr, hevs]
        | more caps' sends' =>
          simp [send_body, hsc, List.countP_cons, List.countP_append, hr, hevs, ih]

/-- C1: every dispatch attempt resolves the pool guard exactly once — on
every code path (readiness failure, open failure, body-send failure,
response failure, success) the trace contains exactly one pool operation
(release or close), never both, never neither. -/
theorem h2_C1 (env : H2Env) (head : RequestHeadType) (length : BodySize) (created : Nat) :
    (send_request env head length created).1.countP is_pool = 1 := by
  have hrel : ∀ (c : Nat) (b : Bool), is_pool (release c b) = true := by
    intro c b
    cases b <;> simp [release, is_pool]
  unfold send_request
  cases hr : env.ready with
  | error e => simp [List.countP_cons, hrel]
  | ok u =>
    have hopen : ∀ q, is_pool (Ev.openAttempt q) = false := fun q => rfl
    cases ho : env.open_res with
    | error e => simp [List.countP_cons, hrel, hopen]
    | ok u2 =>
      cases he : eof_flag length
      · cases hsb : send_body env.body_items env.caps env.send_results with
        | mk bevs r =>
          have hb : bevs.countP is_pool = 0 := by
            have h := send_body_countP_zero is_pool (fun c => rfl) (fun b e => rfl) (fun n => rfl)
              env.body_items env.caps env.send_results
            rw [hsb] at h
            exact h
          cases r with
          | error e2 => simp [hsb, he, List.countP_cons, is_pool, hb]
          | ok s =>
            cases hresp : env.response with
            | error e3 =>
              simp [hsb, he, hresp, List.countP_cons, List.countP_append, is_pool, hb]
            | ok resp =>
              simp [hsb, he, hresp, List.countP_cons, List.countP_append, is_pool, hb]
      · cases hresp : env.response with
        | error e3 => simp [he, hresp, List.countP_cons, is_pool]
        | ok resp => simp [he, hresp, List.countP_cons, is_pool]

/-- C2 (counterexample): readiness failure with a non-I/O (protocol-level)
error resolves the guard via release, not close — the trace holds a
`poolRelease` and no `poolClose`, refuting "resolved via close() regardless
of classification". -/
theorem h2_C2_cex :
    Ev.poolClose ∉ (send_request env_ready_fail_proto ht0 BodySize.None 7).1 ∧
    Ev.poolRelease 7 ∈ (send_request env_ready_fail_proto ht0 BodySize.None 7).1 ∧
    env_ready_fail_proto.ready = Except.error { is_io := false, code := 1 } := by
  decide

/-- C2 (amended): whenever the readiness await fails, the guard is resolved
exactly once — via close() when the error is classified I/O, via release()
otherwise — no stream-open is attempted, and the error is surfaced to the
caller. -/
theorem h2_C2_amended (env : H2Env) (head : RequestHeadType) (length : BodySize)
    (created : Nat) (e : H2Error) (h : env.ready = Except.error e) :
    (send_request env head length created).1 = [release created e.is_io] ∧
    (send_request env head length created).2 = Except.error (SendRequestError.h2 e) ∧
    (send_request env head length created).1.countP is_open_ev = 0 ∧
    (send_request env head length created).1.countP is_pool = 1 := by
  have hs : send_request env head length created
      = ([release created e.is_io], Except.error (SendRequestError.h2 e)) := by
    unfold send_request
    rw [h]
  rw [hs]
  refine ⟨rfl, rfl, ?_, ?_⟩
  · cases hb : e.is_io <;> simp [release, is_open_ev, List.countP_cons]
  · cases hb : e.is_io <;> simp [release, is_pool, List.countP_cons]

/-- C2 (witness): the amended theorem at a concrete I/O readiness failure. -/
theorem h2_C2_witness :
    (send_request env_ready_fail_io ht0 BodySize.None 7).1
        = [release 7 (H2Error.mk true 2).is_io] ∧
    (send_request env_ready_fail_io ht0 BodySize.None 7).2
        = Except.error (SendRequestError.h2 (H2Error.mk true 2)) ∧
    (send_request env_ready_fail_io ht0 BodySize.None 7).1.countP is_open_ev = 0 ∧
    (send_request env_ready_fail_io ht0 BodySize.None 7).1.countP is_pool = 1 :=
  h2_C2_amended env_ready_fail_io ht0 BodySize.None 7 (H2Error.mk true 2) rfl

/-- C4 (counterexample): the timestamp handed to release is not the
wall-clock reading at the moment of the call (`env.now`, here 5): the code
passes the `created` instant it was given (here 0), refuting
"timestamp-of-the-moment-release-is-called". -/
theorem h2_C4_cex :
    Ev.poolRelease env_ok.now ∉ (send_request env_ok ht0 BodySize.None 0).1 ∧
    Ev.poolRelease 0 ∈ (send_request env_ok ht0 BodySize.None 0).1 ∧
    env_ok.now ≠ 0 := by
  decide

/-- C4 (amended): on stream-open success, release is invoked immediately
with the `created` timestamp that was passed into `send_request` — strictly
before any body data frame is sent and before the response future is
awaited — and no further pool operation follows. -/
theorem h2_C4_amended (env : H2Env) (head : RequestHeadType) (length : BodySize)
    (created : Nat) (h1 : env.ready = Except.ok ()) (h2 : env.open_res = Except.ok ()) :
    ∃ rest, (send_request env head length created).1
        = Ev.openAttempt (build_req head length) :: Ev.poolRelease created :: rest ∧
      rest.countP is_pool = 0 := by
  unfold send_request
  rw [h1, h2]
  cases he : eof_flag length
  · cases hsb : send_body env.body_items env.caps env.send_results with
    | mk bevs r =>
      have hb : bevs.countP is_pool = 0 := by
        have h := send_body_countP_zero is_pool (fun c => rfl) (fun b e => rfl) (fun n => rfl)
          env.body_items env.caps env.send_results
        rw [hsb] at h
        exact h
      cases r with
      | error e2 => exact ⟨bevs, by simp [hsb], hb⟩
      | ok s =>
        cases hresp : env.response with
        | error e3 =>
          exact ⟨bevs ++ [Ev.awaitResp], by simp [hsb, hresp],
            by simp [List.countP_append, hb, is_pool]⟩
        | ok resp =>
          exact ⟨bevs ++ [Ev.awaitResp], by simp [hsb, hresp],
            by simp [List.countP_append, hb, is_pool]⟩
  · cases hresp : env.response with
    | error e3 => exact ⟨[Ev.awaitResp], by simp [hresp], by simp [is_pool]⟩
    | ok resp => exact ⟨[Ev.awaitResp], by simp [hresp], by simp [is_pool]⟩

/-- C4 (witness): the amended theorem at a concrete successful dispatch. -/
theorem h2_C4_witness :
    ∃ rest, (send_request env_ok ht0 BodySize.Empty 3).1
        = Ev.openAttempt (build_req ht0 BodySize.Empty) :: Ev.poolRelease 3 :: rest ∧
      rest.countP is_pool = 0 :=
  h2_C4_amended env_ok ht0 BodySize.Empty 3 rfl rfl

/-- C8: the `eof` flag holds exactly for `None`, `Empty` and `Sized(0)`
bodies, and when it holds the dispatch has no body phase at all: the trace
contains no body-loop event (no reserve, no grant, no data frame). -/
theorem h2_C8 (length : BodySize) (env : H2Env) (head : RequestHeadType) (created : Nat) :
    (eof_flag length = true
      ↔ (length = BodySize.None ∨ length = BodySize.Empty ∨ length = BodySize.Sized 0)) ∧
    (eof_flag length = true
      → (send_request env head length created).1.countP is_body_ev = 0) := by
  constructor
  · cases length with
    | None => simp [eof_flag]
    | Empty => simp [eof_flag]
    | Stream => simp [eof_flag]
    | Sized n =>
      cases n with
      | zero => simp [eof_flag]
      | succ m => simp [eof_flag]
  · intro he
    have hb2 : ∀ (c : Nat) (b : Bool), is_body_ev (release c b) = false := by
      intro c b
      cases b <;> simp [release, is_body_ev]
    unfold send_request
    cases hr : env.ready with
    | error e => simp [List.countP_cons, hb2]
    | ok u =>
      have hopen2 : ∀ q, is_body_ev (Ev.openAttempt q) = false := fun q => rfl
      cases ho : env.open_res with
      | error e => simp [List.countP_cons, hb2, hopen2]
      | ok u2 =>
        cases hresp : env.response with
        | error e3 => simp [he, hresp, hopen2, is_body_ev, List.countP_cons]
        | ok resp => simp [he, hresp, hopen2, is_body_ev, List.countP_cons]

/-- C8 (witness): an `Empty` body at a concrete successful dispatch. -/
theorem h2_C8_witness :
    eof_flag BodySize.Empty = true ∧
    (send_request env_ok ht0 BodySize.Empty 0).1.countP is_body_ev = 0 :=
  ⟨by decide, (h2_C8 BodySize.Empty env_ok ht0 0).2 (by decide)⟩

/-- C9: whenever `send_request` returns a response, the payload is empty
for HEAD requests regardless of the response's body stream, and wraps the
response's body stream for every other method. -/
theorem h2_C9 (env : H2Env) (head : RequestHeadType) (length : BodySize) (created : Nat)
    (hd : ResponseHead) (pl : Payload)
    (h : (send_request env head length created).2 = Except.ok (hd, pl)) :
    ((head_of head).method = Method.HEAD → pl = Payload.None) ∧
    ((head_of head).method ≠ Method.HEAD
      → ∃ resp, env.response = Except.ok resp ∧ pl = Payload.Stream resp.body) := by
  unfold send_request at h
  cases hr : env.ready with
  | error e => rw [hr] at h; simp at h
  | ok u =>
    rw [hr] at h
    cases ho : env.open_res with
    | error e => rw [ho] at h; simp at h
    | ok u2 =>
      rw [ho] at h
      cases he : eof_flag length
      · rw [he] at h
        cases hsb : send_body env.body_items env.caps env.send_results with
        | mk bevs r =>
          rw [hsb] at h
          cases r with
          | error e2 => simp at h
          | ok s =>
            cases hresp : env.response with
            | error e3 => rw [hresp] at h; simp at h
            | ok resp =>
              rw [hresp] at h
              have hc := congrArg (fun x => match x with
                | Except.ok (p : ResponseHead × Payload) => p.2
                | Except.error _ => pl) h
              have hpl : pl = (mk_response (head_of head).method resp).2 := hc.symm
              refine ⟨?_, ?_⟩
              · intro hm
                rw [hpl]
                simp [mk_response, hm]
              · intro hm
                exact ⟨resp, rfl, by rw [hpl]; simp [mk_response, hm]⟩
      · rw [he] at h
        cases hresp : env.response with
        | error e3 => rw [hresp] at h; simp at h
        | ok resp =>
          rw [hresp] at h
          have hc := congrArg (fun x => match x with
            | Except.ok (p : ResponseHead × Payload) => p.2
            | Except.error _ => pl) h
          have hpl : pl = (mk_response (head_of head).method resp).2 := hc.symm
          refine ⟨?_, ?_⟩
          · intro hm
            rw [hpl]
            simp [mk_response, hm]
          · intro hm
            exact ⟨resp, rfl, by rw [hpl]; simp [mk_response, hm]⟩

/-- C9 (witness): a concrete HEAD dispatch whose response carries a
non-empty body stream still yields an empty payload. -/
theorem h2_C9_witness :
    ((head_of ht_head).method = Method.HEAD → Payload.None = Payload.None) ∧
    ((head_of ht_head).method ≠ Method.HEAD
      → ∃ resp, env_ok.response = Except.ok resp ∧ Payload.None = Payload.Stream resp.body) :=
  h2_C9 env_ok ht_head BodySize.None 0
    { status := 200, version := 2, headers := [("x-a", "b")] } Payload.None (by decide)

/-- The capacity loop never emits an end-of-stream frame. -/
theorem send_chunk_eos_zero :
    ∀ (caps : List CapItem) (b : List Nat) (sends : List (Option H2Error)),
      eos_count (send_chunk b caps sends).1 = 0 := by
  intro caps
  induction caps with
  | nil => intro b sends; simp [send_chunk, eos_count]
  | cons it tl ih =>
    intro b sends
    cases it with
    | closed => simp [send_chunk, eos_count]
    | fail e => simp [send_chunk, eos_count]
    | grant c =>
      cases hs : head_send sends with
      | mk o s' =>
        cases o with
        | some e => simp [send_chunk, hs, eos_count, List.countP_cons, is_eos]
        | none =>
          by_cases hrem : (List.drop (min c b.length) b).isEmpty
          · simp [send_chunk, hs, hrem, eos_count, List.countP_cons, is_eos]
          · have h := ih (List.drop (min c b.length) b) s'
            simp [send_chunk, hs, hrem, eos_count, List.countP_cons, is_eos] at h ⊢
            exact h

/-- The capacity loop never stops with the end-of-body success marker:
its `Ok` exit is always the capacity-closed one (line 159). -/
theorem send_chunk_stop_not_eof :
    ∀ (caps : List CapItem) (b : List Nat) (sends : List (Option H2Error))
      (r : Except SendRequestError SendEnd),
      (send_chunk b caps sends).2 = ChunkOut.stop r → r ≠ Except.ok SendEnd.eofSent := by
  intro caps
  induction caps with
  | nil =>
    intro b sends r hr
    simp [send_chunk] at hr
    rw [← hr]
    intro hcon
    exact Except.noConfusion hcon (fun he => SendEnd.noConfusion he)
  | cons it tl ih =>
    intro b sends r hr
    cases it with
    | closed =>
      simp [send_chunk] at hr
      rw [← hr]
      intro hcon
      exact Except.noConfusion hcon (fun he => SendEnd.noConfusion he)
    | fail e =>
      simp [send_chunk] at hr
      rw [← hr]
      intro hcon
      exact Except.noConfusion hcon
    | grant c =>
      cases hs : head_send sends with
      | mk o s' =>
        cases o with
        | some e =>
          simp [send_chunk, hs] at hr
          rw [← hr]
          intro hcon
          exact Except.noConfusion hcon
        | none =>
          by_cases hrem : (List.drop (min c b.length) b).isEmpty
          · simp [send_chunk, hs, hrem] at hr
          · simp [send_chunk, hs, hrem] at hr
            exact ih (List.drop (min c b.length) b) s' r hr

/-- Core end-of-stream accounting for `send_body`: the trace carries exactly
one end-of-stream frame when the run ends through the end-of-body exit, and
none otherwise; the end-of-body exit always ends the trace with the empty
end-of-stream frame followed by the zero reservation. -/
theorem send_body_eos :
    ∀ (prod : List BodyItem) (caps : List CapItem) (sends : List (Option H2Error)),
      eos_count (send_body prod caps sends).1
          = (if (send_body prod caps sends).2 = Except.ok SendEnd.eofSent then 1 else 0) ∧
      ((send_body prod caps sends).2 = Except.ok SendEnd.eofSent
        → ∃ pre, (send_body prod caps sends).1 = pre ++ [Ev.dataFrame [] true, Ev.reserve 0]
            ∧ eos_count pre = 0) := by
  intro prod
  induction prod with
  | nil =>
    intro caps sends
    cases hs : head_send sends with
    | mk o s' =>
      cases o with
      | some e =>
        have hsb : send_body ([] : List BodyItem) caps sends
            = ([], Except.error (SendRequestError.h2 e)) := by
          simp [send_body, hs]
        rw [hsb]
        constructor
        · rw [if_neg (fun hcon => Except.noConfusion hcon)]
          rfl
        · intro hcon
          exact Except.noConfusion hcon
      | none =>
        have hsb : send_body ([] : List BodyItem) caps sends
            = ([Ev.dataFrame [] true, Ev.reserve 0], Except.ok SendEnd.eofSent) := by
          simp [send_body, hs]
        rw [hsb]
        constructor
        · rw [if_pos rfl]
          decide
        · intro hok
          exact ⟨[], rfl, rfl⟩
  | cons it rest ih =>
    intro caps sends
    cases it with
    | fail code =>
      have hsb : send_body (BodyItem.fail code :: rest) caps sends
          = ([], Except.error (SendRequestError.body code)) := rfl
      rw [hsb]
      constructor
      · rw [if_neg (fun hcon => Except.noConfusion hcon)]
        rfl
      · intro hcon
        exact Except.noConfusion hcon
    | chunk b =>
      cases hsc : send_chunk b caps sends with
      | mk evs out =>
        have hevs : evs.countP is_eos = 0 := by
          have h := send_chunk_eos_zero caps b sends
          rw [hsc] at h
          simpa [eos_count] using h
        cases out with
        | stop r =>
          have hsb : send_body (BodyItem.chunk b :: rest) caps sends
              = (Ev.reserve b.length :: evs, r) := by
            simp [send_body, hsc]
          have hner : r ≠ Except.ok SendEnd.eofSent := by
            apply send_chunk_stop_not_eof caps b sends
            rw [hsc]
          rw [hsb]
          constructor
          · rw [if_neg hner]
            simp [eos_count, List.countP_cons, is_eos, hevs]
          · intro hok
            exact absurd hok hner
        | more caps' sends' =>
          have hsb : send_body (BodyItem.chunk b :: rest) caps sends
              = (Ev.reserve b.length :: (evs ++ (send_body rest caps' sends').1),
                 (send_body rest caps' sends').2) := by
            simp [send_body, hsc]
          rw [hsb]
          obtain ⟨ih1, ih2⟩ := ih caps' sends'
          constructor
          · simp only [eos_count, List.countP_cons, List.countP_append] at ih1 ⊢
            simp [is_eos, hevs, ih1]
          · intro hok
            obtain ⟨pre, hpre, hpre0⟩ := ih2 hok
            refine ⟨Ev.reserve b.length :: (evs ++ pre), ?_, ?_⟩
            · rw [hpre]
              simp
            · simp only [eos_count, List.countP_cons, List.countP_append] at hpre0 ⊢
              simp [is_eos, hevs, hpre0]

/-- C6 (counterexample): a `send_body` run cut short by capacity closure
(`poll_capacity` returns `None`) terminates successfully yet sends no
end-of-stream frame, refuting "every successful run sends exactly one". -/
theorem h2_C6_cex :
    (send_body [BodyItem.chunk [1]] [] []).2 = Except.ok SendEnd.capClosed ∧
    eos_count (send_body [BodyItem.chunk [1]] [] []).1 = 0 := by
  decide

/-- C6 (amended): a successful `send_body` run sends exactly one
zero-length end-of-stream frame when it terminates through producer
exhaustion (and none when terminated early by capacity closure or by an
error); that frame follows all other frames — the trace ends with it and
the zero reservation — and every end-of-stream frame in any run is
zero-length. -/
theorem h2_C6_amended (prod : List BodyItem) (caps : List CapItem)
    (sends : List (Option H2Error)) :
    eos_count (send_body prod caps sends).1
        = (if (send_body prod caps sends).2 = Except.ok SendEnd.eofSent then 1 else 0) ∧
    ((send_body prod caps sends).2 = Except.ok SendEnd.eofSent
      → ∃ pre, (send_body prod caps sends).1 = pre ++ [Ev.dataFrame [] true, Ev.reserve 0]
          ∧ eos_count pre = 0) ∧
    (∀ b, Ev.dataFrame b true ∈ (send_body prod caps sends).1 → b = []) := by
  obtain ⟨h1, h2⟩ := send_body_eos prod caps sends
  refine ⟨h1, h2, ?_⟩
  intro b hb
  by_cases hok : (send_body prod caps sends).2 = Except.ok SendEnd.eofSent
  · obtain ⟨pre, hpre, hpre0⟩ := h2 hok
    rw [hpre] at hb
    rcases List.mem_append.mp hb with hmem | hmem
    · exfalso
      have hpos : 0 < pre.countP is_eos :=
        List.countP_pos_iff.mpr ⟨_, hmem, by simp [is_eos]⟩
      simp only [eos_count] at hpre0
      omega
    · simp only [List.mem_cons, List.mem_singleton] at hmem
      rcases hmem with h | h
      · exact (Ev.dataFrame.injEq _ _ _ _).mp h |>.1
      · exact absurd h (by simp)
  · exfalso
    have h0 : eos_count (send_body prod caps sends).1 = 0 := by
      rw [h1, if_neg hok]
    have hpos : 0 < (send_body prod caps sends).1.countP is_eos :=
      List.countP_pos_iff.mpr ⟨_, hb, by simp [is_eos]⟩
    simp only [eos_count] at h0
    omega

/-- C6 (witness): the amended theorem's exhaustion clause at the empty
producer. -/
theorem h2_C6_witness :
    ∃ pre, (send_body [] [] []).1 = pre ++ [Ev.dataFrame [] true, Ev.reserve 0]
        ∧ eos_count pre = 0 :=
  (h2_C6_amended [] [] []).2.1 (by decide)

/-- Splitting flow-control soundness across a trace concatenation. -/
theorem frames_bounded_append :
    ∀ (xs : List Ev) (g : Option Nat) (ys : List Ev),
      frames_bounded g (xs ++ ys)
        ↔ (frames_bounded g xs ∧ frames_bounded (after_grants g xs) ys) := by
  intro xs
  induction xs with
  | nil => intro g ys; simp [frames_bounded, after_grants]
  | cons ev rest ih =>
    intro g ys
    cases ev with
    | poolRelease t => simp [frames_bounded, after_grants, ih]
    | poolClose => simp [frames_bounded, after_grants, ih]
    | openAttempt r => simp [frames_bounded, after_grants, ih]
    | grant c => simp [frames_bounded, after_grants, ih]
    | reserve n => simp [frames_bounded, after_grants, ih]
    | dataFrame b e =>
      cases e with
      | false => simp [frames_bounded, after_grants, ih, and_assoc]
      | true => simp [frames_bounded, after_grants, ih]
    | awaitResp => simp [frames_bounded, after_grants, ih]

/-- Every data frame the capacity loop emits is bounded by the capacity
grant received immediately before it. -/
theorem send_chunk_bounded :
    ∀ (caps : List CapItem) (b : List Nat) (sends : List (Option H2Error)) (g : Option Nat),
      frames_bounded g (send_chunk b caps sends).1 := by
  intro caps
  induction caps with
  | nil => intro b sends g; simp [send_chunk, frames_bounded]
  | cons it tl ih =>
    intro b sends g
    cases it with
    | closed => simp [send_chunk, frames_bounded]
    | fail e => simp [send_chunk, frames_bounded]
    | grant c =>
      cases hs : head_send sends with
      | mk o s' =>
        cases o with
        | some e => simp [send_chunk, hs, frames_bounded]
        | none =>
          by_cases hrem : (List.drop (min c b.length) b).isEmpty
          · simp [send_chunk, hs, hrem, frames_bounded, List.length_take]
          · have h := ih (List.drop (min c b.length) b) s' (Option.some c)
            simp [send_chunk, hs, hrem, frames_bounded, List.length_take, h]

/-- Every data frame `send_body` emits is bounded by the most recent
capacity grant. -/
theorem send_body_bounded :
    ∀ (prod : List BodyItem) (caps : List CapItem) (sends : List (Option H2Error)) (g : Option Nat),
      frames_bounded g (send_body prod caps sends).1 := by
  intro prod
  induction prod with
  | nil =>
    intro caps sends g
    cases hs : head_send sends with
    | mk o s' =>
      cases o with
      | some e => simp [send_body, hs, frames_bounded]
      | none => simp [send_body, hs, frames_bounded]
  | cons it rest ih =>
    intro caps sends g
    cases it with
    | fail code => simp [send_body, frames_bounded]
    | chunk b =>
      cases hsc : send_chunk b caps sends with
      | mk evs out =>
        have hevs : ∀ g', frames_bounded g' evs := by
          intro g'
          have h := send_chunk_bounded caps b sends g'
          rw [hsc] at h
          exact h
        cases out with
        | stop r =>
          have hsb : (send_body (BodyItem.chunk b :: rest) caps sends).1
              = Ev.reserve b.length :: evs := by
            simp [send_body, hsc]
          rw [hsb]
          simpa [frames_bounded] using hevs g
        | more caps' sends' =>
          have hsb : (send_body (BodyItem.chunk b :: rest) caps sends).1
              = Ev.reserve b.length :: (evs ++ (send_body rest caps' sends').1) := by
            simp [send_body, hsc]
          rw [hsb]
          show frames_bounded g (Ev.reserve b.length :: (evs ++ (send_body rest caps' sends').1))
          rw [show frames_bounded g (Ev.reserve b.length :: (evs ++ (send_body rest caps' sends').1))
              = frames_bounded g (evs ++ (send_body rest caps' sends').1) from rfl]
          rw [frames_bounded_append]
          exact ⟨hevs g, ih caps' sends' _⟩

/-- C5 (counterexample): a zero capacity grant does not terminate the loop:
the code sends an empty (zero-byte) non-end-of-stream data frame and
re-reserves for the whole buffer; the loop ends only when `poll_capacity`
signals closure, refuting "grants zero capacity … terminates without
sending". -/
theorem h2_C5_cex :
    (send_body [BodyItem.chunk [1, 2, 3]] [CapItem.grant 0] []).1
        = [Ev.reserve 3, Ev.grant 0, Ev.dataFrame [] false, Ev.reserve 3] ∧
    (send_body [BodyItem.chunk [1, 2, 3]] [CapItem.grant 0] []).2
        = Except.ok SendEnd.capClosed := by
  decide

/-- C5 (amended): in the WaitCapacity state, a closure signal (or an
exhausted grant stream) terminates the loop successfully with nothing sent;
a grant `c` — including `c = 0` — sends exactly `min c remaining` bytes as
one non-end-of-stream frame and re-reserves the remainder before looping;
consequently no data frame ever exceeds the grant that precedes it, and
globally every frame of a `send_body` trace is bounded by the most recent
grant. -/
theorem h2_C5_amended (b : List Nat) (c : Nat) (caps : List CapItem)
    (sends : List (Option H2Error)) (prod : List BodyItem) (g : Option Nat) :
    send_chunk b [] sends = ([], ChunkOut.stop (Except.ok SendEnd.capClosed)) ∧
    send_chunk b (CapItem.closed :: caps) sends
        = ([], ChunkOut.stop (Except.ok SendEnd.capClosed)) ∧
    send_chunk b (CapItem.grant c :: caps) (Option.none :: sends)
        = (if b.length ≤ c then
            ([Ev.grant c, Ev.dataFrame (b.take (min c b.length)) false], ChunkOut.more caps sends)
          else
            (Ev.grant c :: Ev.dataFrame (b.take (min c b.length)) false
                :: Ev.reserve (b.length - c) :: (send_chunk (b.drop c) caps sends).1,
             (send_chunk (b.drop c) caps sends).2)) ∧
    (b.take (min c b.length)).length ≤ c ∧
    frames_bounded g (send_body prod caps sends).1 := by
  refine ⟨rfl, rfl, ?_, ?_, send_body_bounded prod caps sends g⟩
  · by_cases hbc : b.length ≤ c
    · rw [if_pos hbc]
      have hmin : min c b.length = b.length := min_eq_right hbc
      simp [send_chunk, head_send, hmin, List.drop_length]
    · rw [if_neg hbc]
      have hcle : c ≤ b.length := Nat.le_of_not_le (fun hcon => hbc (Nat.le_of_lt
        (Nat.lt_of_le_of_ne hcon (fun he => hbc (he ▸ Nat.le_refl _)))))
      have hmin : min c b.length = c := min_eq_left hcle
      have hne : (List.drop c b).isEmpty = false := by
        simp [List.isEmpty_iff, List.drop_eq_nil_iff]
        omega
      simp [send_chunk, head_send, hmin, hne, List.length_drop]
  · simp [List.length_take]
